import Mathlib

/-!
Shallow embedding of the proposed image data model (`SColor`, pixel formats
`RGBA8` / `RGB8` / `R8`, the strided 2D view `View2d`, and the variant-based
`Image` container) together with proofs of the specified properties.

Machine integers are modelled as `Nat` with explicit truncation: a `u8`
function parameter becomes `% 256` at the call boundary and a `u32` value is
a `Nat` below `2 ^ 32`.  Pointers become byte offsets into an abstract byte
space; the memory of one pixel buffer is a total function from the byte
address of an element's first byte to the element stored there (all accesses
made by the code land on element-start addresses, so this granularity is
exact for the code's reads and writes).
-/

namespace ImageModel

/-- Embeds `struct SColor { u32 color; }` — generic 32-bit packed color. -/
structure SColor where
  color : Nat
  deriving DecidableEq, Repr

/-- Embeds `SColor(u8 a, u8 r, u8 g, u8 b)`: packs `(a << 24) | (r << 16) | (g << 8) | b`.
The `% 256` on each argument models the `u8` parameter type; the bitwise-or of
the disjoint 8-bit fields is written as a sum. -/
def SColor.make (a r g b : Nat) : SColor :=
  ⟨a % 256 * 2 ^ 24 + r % 256 * 2 ^ 16 + g % 256 * 2 ^ 8 + b % 256⟩

/-- Embeds `u8 getAlpha() const { return (color >> 24) & 0xFF; }` -/
def SColor.getAlpha (c : SColor) : Nat := c.color / 2 ^ 24 % 256

/-- Embeds `u8 getRed() const { return (color >> 16) & 0xFF; }` -/
def SColor.getRed (c : SColor) : Nat := c.color / 2 ^ 16 % 256

/-- Embeds `u8 getGreen() const { return (color >> 8) & 0xFF; }` -/
def SColor.getGreen (c : SColor) : Nat := c.color / 2 ^ 8 % 256

/-- Embeds `u8 getBlue() const { return color & 0xFF; }` -/
def SColor.getBlue (c : SColor) : Nat := c.color % 256

/-- Embeds `struct RGBA8 { u8 r, g, b, a; }` — 4-channel 8-bit pixel. -/
structure RGBA8 where
  r : Nat
  g : Nat
  b : Nat
  a : Nat
  deriving DecidableEq, Repr

/-- Embeds `RGBA8::fromSColor(c) = RGBA8(c.getRed(), c.getGreen(), c.getBlue(), c.getAlpha())`. -/
def RGBA8.fromSColor (c : SColor) : RGBA8 :=
  ⟨c.getRed, c.getGreen, c.getBlue, c.getAlpha⟩

/-- Embeds `RGBA8::toSColor() = SColor(a, r, g, b)`. -/
def RGBA8.toSColor (p : RGBA8) : SColor := SColor.make p.a p.r p.g p.b

/-- Embeds `struct RGB8 { u8 r, g, b; }` — 3-channel 8-bit pixel, opaque. -/
structure RGB8 where
  r : Nat
  g : Nat
  b : Nat
  deriving DecidableEq, Repr

/-- Embeds `RGB8::fromSColor(c) = RGB8(c.getRed(), c.getGreen(), c.getBlue())` (alpha discarded). -/
def RGB8.fromSColor (c : SColor) : RGB8 := ⟨c.getRed, c.getGreen, c.getBlue⟩

/-- Embeds `RGB8::toSColor() = SColor(255, r, g, b)` (alpha synthesized fully opaque). -/
def RGB8.toSColor (p : RGB8) : SColor := SColor.make 255 p.r p.g p.b

/-- Embeds `struct R8 { u8 r; }` — 1-channel 8-bit pixel; it has no SColor conversion. -/
structure R8 where
  r : Nat
  deriving DecidableEq, Repr

lemma SColor.getAlpha_make (a r g b : Nat) :
    (SColor.make a r g b).getAlpha = a % 256 := by
  simp only [SColor.make, SColor.getAlpha]
  omega

lemma SColor.getRed_make (a r g b : Nat) :
    (SColor.make a r g b).getRed = r % 256 := by
  simp only [SColor.make, SColor.getRed]
  omega

lemma SColor.getGreen_make (a r g b : Nat) :
    (SColor.make a r g b).getGreen = g % 256 := by
  simp only [SColor.make, SColor.getGreen]
  omega

lemma SColor.getBlue_make (a r g b : Nat) :
    (SColor.make a r g b).getBlue = b % 256 := by
  simp only [SColor.make, SColor.getBlue]
  omega

/-- Repacking the four extracted channels of a 32-bit color restores it. -/
lemma SColor.make_channels (c : SColor) (hc : c.color < 2 ^ 32) :
    SColor.make c.getAlpha c.getRed c.getGreen c.getBlue = c := by
  cases c with
  | mk v =>
    simp only [SColor.make, SColor.getAlpha, SColor.getRed, SColor.getGreen,
      SColor.getBlue, SColor.mk.injEq]
    simp only [SColor.mk.injEq] at *
    omega

/-- Converting a 32-bit packed color to `RGBA8` and back restores it. -/
lemma RGBA8.toSColor_fromSColor (c : SColor) (hc : c.color < 2 ^ 32) :
    (RGBA8.fromSColor c).toSColor = c := by
  simpa [RGBA8.fromSColor, RGBA8.toSColor] using SColor.make_channels c hc

/-!
`View2d<T>` — non-owning strided 2D view.  `data_` (a `T*`) is a byte offset
into the buffer's byte space; `x_stride_` is `sizeof(T)` (4 for `RGBA8`, 3 for
`RGB8`, 1 for `R8`), supplied explicitly since the embedding is untyped in the
element type.  All pointer arithmetic of the source is reproduced verbatim on
these offsets.
-/

/-- The fields of `View2d<T>`: base byte offset, width, height, element byte
size (`x_stride_ = sizeof(T)`), and row byte stride (`y_stride_`). -/
structure View2d where
  data_ : Nat
  width_ : Nat
  height_ : Nat
  x_stride_ : Nat
  y_stride_ : Nat
  deriving DecidableEq, Repr

/-- Embeds `View2d(T *data, u32 width, u32 height, u32 y_stride = 0)`: the row stride
defaults to `width * sizeof(T)` when the given one is zero
(`y_stride > 0 ? y_stride : width * sizeof(T)`). -/
def View2d.make (data w h es ystride : Nat) : View2d :=
  ⟨data, w, h, es, if 0 < ystride then ystride else w * es⟩

/-- Byte address computed by `at(x, y)`:
`data_ + y * y_stride_ + x * x_stride_`. -/
def View2d.addr (v : View2d) (x y : Nat) : Nat :=
  v.data_ + y * v.y_stride_ + x * v.x_stride_

/-- Byte address computed by `row(y)`: `data_ + y * y_stride_`. -/
def View2d.rowAddr (v : View2d) (y : Nat) : Nat :=
  v.data_ + y * v.y_stride_

/-- Embeds `drop(left, top)`: sub-view starting at `(left, top)`, same stride.
`new_data = data_ + top * y_stride_ + left * x_stride_`, dimensions
`width_ - left`, `height_ - top` (`u32` subtraction under the asserted
precondition `left <= width_ && top <= height_`, hence never negative). -/
def View2d.drop (v : View2d) (left top : Nat) : View2d :=
  ⟨v.data_ + top * v.y_stride_ + left * v.x_stride_,
    v.width_ - left, v.height_ - top, v.x_stride_, v.y_stride_⟩

/-- Embeds `take(width, height)`: top-left sub-rectangle, same base and stride. -/
def View2d.take (v : View2d) (width height : Nat) : View2d :=
  ⟨v.data_, width, height, v.x_stride_, v.y_stride_⟩

/-- Embeds `slice(x, y, width, height) = drop(x, y).take(width, height)`. -/
def View2d.slice (v : View2d) (x y width height : Nat) : View2d :=
  (v.drop x y).take width height

def View2d.getWidth (v : View2d) : Nat := v.width_

def View2d.getHeight (v : View2d) : Nat := v.height_

def View2d.getYStride (v : View2d) : Nat := v.y_stride_

def View2d.getData (v : View2d) : Nat := v.data_

/-!
Memory model: one pixel buffer is a total function from the byte address of an
element's first byte to the element value stored there.  Every access the code
performs is at such an element-start address, so reads and writes at this
granularity model the byte-level effects exactly.
-/

/-- Contents of a pixel buffer of element type `T`, indexed by the byte
address of each element's first byte. -/
def Mem (T : Type) : Type := Nat → T

/-- A single element store (`*ptr = v`). -/
def writeMem {T : Type} (m : Mem T) (a : Nat) (v : T) : Mem T :=
  fun a' => if a' = a then v else m a'

/-- Reading element `(x, y)` through a view: `at(x, y)` dereferenced. -/
def View2d.read {T : Type} (v : View2d) (m : Mem T) (x y : Nat) : T :=
  m (v.addr x y)

/-!
`Array2d<T>(width, height)` allocates `width * height` elements
(uninitialized) and builds `View2d(buffer, width, height)` over them, i.e. the
view `View2d.make 0 w h (sizeof T) 0` with the buffer's start at byte offset 0.
`Image` is `std::variant<Array2d<RGBA8>, Array2d<RGB8>, Array2d<R8>>`; each
variant carries its dimensions and its buffer contents.  Uninitialized
allocation is modelled by the factories taking an arbitrary initial `Mem`.
-/

/-- The view `Array2d<T>` builds over its buffer: base offset 0, default
(tightly packed) row stride. -/
def arrayView (w h es : Nat) : View2d := View2d.make 0 w h es 0

/-- Embeds `Image::ImageData = std::variant<Array2d<RGBA8>, Array2d<RGB8>, Array2d<R8>>`,
with each `Array2d` reduced to (width, height, buffer contents). -/
inductive Image where
  | imgRGBA8 (w h : Nat) (mem : Mem RGBA8) : Image
  | imgRGB8 (w h : Nat) (mem : Mem RGB8) : Image
  | imgR8 (w h : Nat) (mem : Mem R8) : Image

/-- Embeds `Image::createRGBA8(width, height)`; `mem` is the uninitialized buffer. -/
def Image.createRGBA8 (w h : Nat) (mem : Mem RGBA8) : Image := .imgRGBA8 w h mem

/-- Embeds `Image::createRGB8(width, height)`; `mem` is the uninitialized buffer. -/
def Image.createRGB8 (w h : Nat) (mem : Mem RGB8) : Image := .imgRGB8 w h mem

/-- Embeds `Image::createR8(width, height)`; `mem` is the uninitialized buffer. -/
def Image.createR8 (w h : Nat) (mem : Mem R8) : Image := .imgR8 w h mem

/-- Embeds `isRGBA8() = std::holds_alternative<Array2d<RGBA8>>(data_)`. -/
def Image.isRGBA8 : Image → Bool
  | .imgRGBA8 _ _ _ => true
  | _ => false

/-- Embeds `isRGB8() = std::holds_alternative<Array2d<RGB8>>(data_)`. -/
def Image.isRGB8 : Image → Bool
  | .imgRGB8 _ _ _ => true
  | _ => false

/-- Embeds `isR8() = std::holds_alternative<Array2d<R8>>(data_)`. -/
def Image.isR8 : Image → Bool
  | .imgR8 _ _ _ => true
  | _ => false

/-- Embeds `std::bad_variant_access` — the fault `std::get` raises on a
wrong-variant access. -/
inductive BadVariantAccess where
  | mk
  deriving DecidableEq, Repr

/-- Embeds `getAsRGBA8() = std::get<Array2d<RGBA8>>(data_).getView()`: yields the
live variant's view, or raises `std::bad_variant_access` (modelled as
`Except.error`) when the live variant is not `RGBA8`. -/
def Image.getAsRGBA8 : Image → Except BadVariantAccess View2d
  | .imgRGBA8 w h _ => .ok (arrayView w h 4)
  | _ => .error .mk

/-- Embeds `getAsRGB8() = std::get<Array2d<RGB8>>(data_).getView()`, raising
`std::bad_variant_access` (modelled as `Except.error`) on a wrong variant. -/
def Image.getAsRGB8 : Image → Except BadVariantAccess View2d
  | .imgRGB8 w h _ => .ok (arrayView w h 3)
  | _ => .error .mk

/-- Embeds `getAsR8() = std::get<Array2d<R8>>(data_).getView()`, raising
`std::bad_variant_access` (modelled as `Except.error`) on a wrong variant. -/
def Image.getAsR8 : Image → Except BadVariantAccess View2d
  | .imgR8 w h _ => .ok (arrayView w h 1)
  | _ => .error .mk

/-- Embeds `getWidth()`: visits the live variant's `getWidth()`. -/
def Image.getWidth : Image → Nat
  | .imgRGBA8 w _ _ => w
  | .imgRGB8 w _ _ => w
  | .imgR8 w _ _ => w

/-- Embeds `getHeight()`: visits the live variant's `getHeight()`. -/
def Image.getHeight : Image → Nat
  | .imgRGBA8 _ h _ => h
  | .imgRGB8 _ h _ => h
  | .imgR8 _ h _ => h

/-- The inner loop of `Image::fill`: `for (x = 0; x < n; ++x) row_ptr[x] = c;`
where `row_ptr[x]` is the element at byte address `rowAddr + x * xs`.
`fillRowLoop m rowAddr xs c n` is the memory after the first `n` iterations
(stores performed in increasing `x`). -/
def fillRowLoop {T : Type} (m : Mem T) (rowAddr xs : Nat) (c : T) : Nat → Mem T
  | 0 => m
  | n + 1 => writeMem (fillRowLoop m rowAddr xs c n) (rowAddr + n * xs) c

/-- The outer loop of `Image::fill`: for each `y < n`, fill row `y` (base
address `view.row(y)`, i.e. `v.rowAddr y`) across `view.getWidth()` elements. -/
def fillRect {T : Type} (m : Mem T) (v : View2d) (c : T) : Nat → Mem T
  | 0 => m
  | n + 1 => fillRowLoop (fillRect m v c n) (v.rowAddr n) v.x_stride_ c v.width_

/-- Embeds `Image::fill(color)`: for `RGBA8` and `RGB8` images, converts the color
with `fromSColor` and writes it to every element of every row of the live
view; there is no branch for `R8`, which is left untouched. -/
def Image.fill : Image → SColor → Image
  | .imgRGBA8 w h mem, color =>
      .imgRGBA8 w h (fillRect mem (arrayView w h 4) (RGBA8.fromSColor color)
        (arrayView w h 4).height_)
  | .imgRGB8 w h mem, color =>
      .imgRGB8 w h (fillRect mem (arrayView w h 3) (RGB8.fromSColor color)
        (arrayView w h 3).height_)
  | .imgR8 w h mem, _ => .imgR8 w h mem

/-- Embeds `Image::getPixel(x, y)`: `getAsRGBA8().at(x, y).toSColor()` resp. the
`RGB8` analogue; for an `R8` image the fallthrough returns `SColor(0,0,0,0)`. -/
def Image.getPixel : Image → Nat → Nat → SColor
  | .imgRGBA8 w h mem, x, y => ((arrayView w h 4).read mem x y).toSColor
  | .imgRGB8 w h mem, x, y => ((arrayView w h 3).read mem x y).toSColor
  | .imgR8 _ _ _, _, _ => SColor.make 0 0 0 0

/-- Embeds `Image::setPixel(x, y, color)`: stores `fromSColor(color)` at `at(x, y)`
of the live view for `RGBA8`/`RGB8`; there is no branch for `R8`. -/
def Image.setPixel : Image → Nat → Nat → SColor → Image
  | .imgRGBA8 w h mem, x, y, color =>
      .imgRGBA8 w h (writeMem mem ((arrayView w h 4).addr x y)
        (RGBA8.fromSColor color))
  | .imgRGB8 w h mem, x, y, color =>
      .imgRGB8 w h (writeMem mem ((arrayView w h 3).addr x y)
        (RGB8.fromSColor color))
  | .imgR8 w h mem, _, _, _ => .imgR8 w h mem

/-! Characterization of the fill loops. -/

/-- After `n` iterations of the inner fill loop, every element the loop has
written holds `c`. -/
lemma fillRowLoop_written {T : Type} (m : Mem T) (r xs : Nat) (c : T) :
    ∀ n x, x < n → fillRowLoop m r xs c n (r + x * xs) = c := by
  intro n
  induction n with
  | zero => intro x hx; omega
  | succ k ih =>
    intro x hx
    simp only [fillRowLoop, writeMem]
    by_cases hxk : r + x * xs = r + k * xs
    · simp [hxk]
    · have hxk' : x ≠ k := fun h => hxk (by rw [h])
      rw [if_neg hxk]
      exact ih x (by omega)

/-- The inner fill loop leaves every address either holding `c` or untouched. -/
lemma fillRowLoop_cases {T : Type} (m : Mem T) (r xs : Nat) (c : T) :
    ∀ n a, fillRowLoop m r xs c n a = c ∨ fillRowLoop m r xs c n a = m a := by
  intro n
  induction n with
  | zero => intro a; right; rfl
  | succ k ih =>
    intro a
    simp only [fillRowLoop, writeMem]
    by_cases ha : a = r + k * xs
    · left; simp [ha]
    · rw [if_neg ha]; exact ih a

/-- After the first `n` rows are filled, every element of those rows holds
`c`. -/
lemma fillRect_written {T : Type} (m : Mem T) (v : View2d) (c : T) :
    ∀ n x y, x < v.width_ → y < n → fillRect m v c n (v.addr x y) = c := by
  intro n
  induction n with
  | zero => intro x y _ hy; omega
  | succ k ih =>
    intro x y hx hy
    simp only [fillRect]
    by_cases hyk : y = k
    · subst hyk
      exact fillRowLoop_written _ _ _ _ _ x hx
    · rcases fillRowLoop_cases (fillRect m v c k) (v.rowAddr k) v.x_stride_ c
        v.width_ (v.addr x y) with hc | hm
      · exact hc
      · rw [hm]; exact ih x y hx (by omega)

/-! Claim theorems. -/

/-- C2: for all 8-bit `r g b a`, converting `RGBA8(r,g,b,a)` to the generic
packed color and back yields the identical pixel — the conversion is lossless
and order-preserving on all four channels. -/
theorem rgba8_roundtrip_lossless (r g b a : Nat)
    (hr : r < 256) (hg : g < 256) (hb : b < 256) (ha : a < 256) :
    RGBA8.fromSColor (RGBA8.toSColor ⟨r, g, b, a⟩) = ⟨r, g, b, a⟩ := by
  simp [RGBA8.fromSColor, RGBA8.toSColor, SColor.getRed_make, SColor.getGreen_make,
    SColor.getBlue_make, SColor.getAlpha_make, Nat.mod_eq_of_lt, hr, hg, hb, ha]

theorem rgba8_roundtrip_lossless_witness :
    (3 : Nat) < 256 ∧ (5 : Nat) < 256 ∧ (7 : Nat) < 256 ∧ (9 : Nat) < 256 ∧
    RGBA8.fromSColor (RGBA8.toSColor ⟨3, 5, 7, 9⟩) = ⟨3, 5, 7, 9⟩ :=
  ⟨by decide, by decide, by decide, by decide,
    rgba8_roundtrip_lossless 3 5 7 9 (by decide) (by decide) (by decide) (by decide)⟩

/-- C7: `RGB8::fromSColor` discards the alpha channel, `RGB8::toSColor` has
alpha exactly 255 and channels `r g b`, and hence round-tripping an `RGB8`
pixel through the generic color yields alpha 255 regardless of the source
alpha. -/
theorem rgb8_alpha_discard_and_opaque (r g b a : Nat)
    (hr : r < 256) (hg : g < 256) (hb : b < 256) (ha : a < 256) :
    RGB8.fromSColor (SColor.make a r g b) = ⟨r, g, b⟩ ∧
    (RGB8.toSColor ⟨r, g, b⟩).getAlpha = 255 ∧
    (RGB8.toSColor ⟨r, g, b⟩).getRed = r ∧
    (RGB8.toSColor ⟨r, g, b⟩).getGreen = g ∧
    (RGB8.toSColor ⟨r, g, b⟩).getBlue = b ∧
    ((RGB8.fromSColor (SColor.make a r g b)).toSColor).getAlpha = 255 := by
  refine ⟨?_, ?_, ?_, ?_, ?_, ?_⟩ <;>
    simp [RGB8.fromSColor, RGB8.toSColor, SColor.getRed_make, SColor.getGreen_make,
      SColor.getBlue_make, SColor.getAlpha_make, Nat.mod_eq_of_lt, hr, hg, hb]

theorem rgb8_alpha_discard_and_opaque_witness :
    (10 : Nat) < 256 ∧ (20 : Nat) < 256 ∧ (30 : Nat) < 256 ∧ (40 : Nat) < 256 ∧
    RGB8.fromSColor (SColor.make 40 10 20 30) = ⟨10, 20, 30⟩ ∧
    (RGB8.toSColor ⟨10, 20, 30⟩).getAlpha = 255 := by
  have h := rgb8_alpha_discard_and_opaque 10 20 30 40
    (by decide) (by decide) (by decide) (by decide)
  exact ⟨by decide, by decide, by decide, by decide, h.1, h.2.1⟩

/-- C4: `drop(left, top)` yields width `getWidth() - left`, height
`getHeight() - top`, the same row stride, and `drop(0, 0)` is identical to the
original view (same base, width, height, stride). -/
theorem drop_dims (V : View2d) (left top : Nat)
    (hl : left ≤ V.getWidth) (ht : top ≤ V.getHeight) :
    (V.drop left top).getWidth = V.getWidth - left ∧
    (V.drop left top).getHeight = V.getHeight - top ∧
    (V.drop left top).getYStride = V.getYStride ∧
    V.drop 0 0 = V := by
  refine ⟨rfl, rfl, rfl, ?_⟩
  cases V with
  | mk d w h xs ys => simp [View2d.drop]

theorem drop_dims_witness :
    (2 : Nat) ≤ (View2d.make 0 10 10 4 0).getWidth ∧
    (3 : Nat) ≤ (View2d.make 0 10 10 4 0).getHeight ∧
    ((View2d.make 0 10 10 4 0).drop 2 3).getWidth =
      (View2d.make 0 10 10 4 0).getWidth - 2 ∧
    (View2d.make 0 10 10 4 0).drop 0 0 = View2d.make 0 10 10 4 0 := by
  have h := drop_dims (View2d.make 0 10 10 4 0) 2 3 (by decide) (by decide)
  exact ⟨by decide, by decide, h.1, h.2.2.2⟩

/-- C5: `take(w, h)` yields width `w`, height `h`, the same row stride and the
same base address as the original view. -/
theorem take_dims (V : View2d) (w h : Nat)
    (hw : w ≤ V.getWidth) (hh : h ≤ V.getHeight) :
    (V.take w h).getWidth = w ∧
    (V.take w h).getHeight = h ∧
    (V.take w h).getYStride = V.getYStride ∧
    (V.take w h).getData = V.getData :=
  ⟨rfl, rfl, rfl, rfl⟩

theorem take_dims_witness :
    (3 : Nat) ≤ (View2d.make 0 10 10 4 0).getWidth ∧
    (4 : Nat) ≤ (View2d.make 0 10 10 4 0).getHeight ∧
    ((View2d.make 0 10 10 4 0).take 3 4).getWidth = 3 ∧
    ((View2d.make 0 10 10 4 0).take 3 4).getData =
      (View2d.make 0 10 10 4 0).getData := by
  have h := take_dims (View2d.make 0 10 10 4 0) 3 4 (by decide) (by decide)
  exact ⟨by decide, by decide, h.1, h.2.2.2⟩

/-- C3: a sub-view obtained by `drop` (then `take`) aliases its parent:
element `(x, y)` of `V.drop(l, t).take(w, h)` is at the same memory address as
element `(l+x, t+y)` of `V`.  Concretely, on a 10×10 `RGBA8` view,
`drop(2,2).take(3,3)` is a 3×3 sub-view, and writing to its element `(0, 0)`
changes element `(2, 2)` of the original view and no other element. -/
theorem subview_aliases_parent (V : View2d) (l t : Nat)
    (hl : l ≤ V.getWidth) (ht : t ≤ V.getHeight) :
    (∀ w h x y, ((V.drop l t).take w h).addr x y = V.addr (l + x) (t + y)) ∧
    (((arrayView 10 10 4).drop 2 2).take 3 3).getWidth = 3 ∧
    (((arrayView 10 10 4).drop 2 2).take 3 3).getHeight = 3 ∧
    (∀ (m : Mem RGBA8) (p : RGBA8) (x y : Nat), x < 10 → y < 10 →
      writeMem m ((((arrayView 10 10 4).drop 2 2).take 3 3).addr 0 0) p
        ((arrayView 10 10 4).addr x y) =
      if x = 2 ∧ y = 2 then p else m ((arrayView 10 10 4).addr x y)) := by
  refine ⟨?_, rfl, rfl, ?_⟩
  · intro w h x y
    simp only [View2d.drop, View2d.take, View2d.addr]
    ring
  · intro m p x y hx hy
    simp only [arrayView, View2d.make, View2d.drop, View2d.take, View2d.addr,
      writeMem]
    norm_num
    by_cases hxy : x = 2 ∧ y = 2
    · obtain ⟨hx2, hy2⟩ := hxy
      subst hx2; subst hy2
      simp
    · rw [if_neg (by omega), if_neg hxy]

theorem subview_aliases_parent_witness :
    (2 : Nat) ≤ (arrayView 10 10 4).getWidth ∧
    (2 : Nat) ≤ (arrayView 10 10 4).getHeight ∧
    (((arrayView 10 10 4).drop 2 2).take 3 3).addr 1 1 =
      (arrayView 10 10 4).addr (2 + 1) (2 + 1) ∧
    (3 : Nat) < 10 ∧ (2 : Nat) < 10 ∧
    writeMem (fun _ => RGBA8.mk 0 0 0 0)
        ((((arrayView 10 10 4).drop 2 2).take 3 3).addr 0 0) (RGBA8.mk 1 2 3 4)
        ((arrayView 10 10 4).addr 3 2) =
      if (3 : Nat) = 2 ∧ (2 : Nat) = 2 then RGBA8.mk 1 2 3 4
      else (fun _ => RGBA8.mk 0 0 0 0) ((arrayView 10 10 4).addr 3 2) := by
  have h := subview_aliases_parent (arrayView 10 10 4) 2 2 (by decide) (by decide)
  exact ⟨by decide, by decide, h.1 3 3 1 1, by decide, by decide,
    h.2.2.2 (fun _ => RGBA8.mk 0 0 0 0) (RGBA8.mk 1 2 3 4) 3 2
      (by decide) (by decide)⟩

/-- C1: after `fill(c)` on an image created via `createRGBA8(w, h)` with
`w, h > 0`, every element of the buffer equals `RGBA8::fromSColor(c)`, and
`getPixel(x, y)` returns exactly `c` for every in-bounds `(x, y)`. -/
theorem rgba8_fill_elements_and_getPixel (w h : Nat) (mem : Mem RGBA8)
    (c : SColor) (hw : 0 < w) (hh : 0 < h) (hc : c.color < 2 ^ 32)
    (x y : Nat) (hx : x < w) (hy : y < h) :
    (arrayView w h 4).read
      (fillRect mem (arrayView w h 4) (RGBA8.fromSColor c)
        (arrayView w h 4).height_) x y = RGBA8.fromSColor c ∧
    ((Image.createRGBA8 w h mem).fill c).getPixel x y = c := by
  have helem : (arrayView w h 4).read
      (fillRect mem (arrayView w h 4) (RGBA8.fromSColor c)
        (arrayView w h 4).height_) x y = RGBA8.fromSColor c :=
    fillRect_written mem (arrayView w h 4) (RGBA8.fromSColor c) h x y hx hy
  refine ⟨helem, ?_⟩
  show ((arrayView w h 4).read
    (fillRect mem (arrayView w h 4) (RGBA8.fromSColor c)
      (arrayView w h 4).height_) x y).toSColor = c
  rw [helem]
  exact RGBA8.toSColor_fromSColor c hc

theorem rgba8_fill_elements_and_getPixel_witness :
    (0 : Nat) < 10 ∧ (SColor.make 255 255 0 0).color < 2 ^ 32 ∧ (5 : Nat) < 10 ∧
    ((Image.createRGBA8 10 10 (fun _ => RGBA8.mk 0 0 0 0)).fill
        (SColor.make 255 255 0 0)).getPixel 5 5 = SColor.make 255 255 0 0 ∧
    (arrayView 10 10 4).read
      (fillRect (fun _ => RGBA8.mk 0 0 0 0) (arrayView 10 10 4)
        (RGBA8.fromSColor (SColor.make 255 255 0 0))
        (arrayView 10 10 4).height_) 5 5 = RGBA8.mk 255 0 0 255 := by
  have h := rgba8_fill_elements_and_getPixel 10 10 (fun _ => RGBA8.mk 0 0 0 0)
    (SColor.make 255 255 0 0) (by decide) (by decide) (by decide)
    5 5 (by decide) (by decide)
  refine ⟨by decide, by decide, by decide, h.2, ?_⟩
  rw [h.1]
  decide

/-- C6: calling a typed accessor for a variant that is not live raises the
explicit type-mismatch fault (`std::bad_variant_access`, modelled as
`Except.error`) and never returns a view. -/
theorem wrong_variant_accessor_faults (img : Image) :
    (img.isRGBA8 = false → img.getAsRGBA8 = .error .mk) ∧
    (img.isRGB8 = false → img.getAsRGB8 = .error .mk) ∧
    (img.isR8 = false → img.getAsR8 = .error .mk) := by
  cases img <;>
    simp [Image.isRGBA8, Image.isRGB8, Image.isR8,
      Image.getAsRGBA8, Image.getAsRGB8, Image.getAsR8]

theorem wrong_variant_accessor_faults_witness :
    (Image.createRGBA8 4 4 (fun _ => RGBA8.mk 0 0 0 0)).isRGB8 = false ∧
    (Image.createRGBA8 4 4 (fun _ => RGBA8.mk 0 0 0 0)).getAsRGB8 =
      .error .mk :=
  ⟨rfl, (wrong_variant_accessor_faults
    (Image.createRGBA8 4 4 (fun _ => RGBA8.mk 0 0 0 0))).2.1 rfl⟩

/-- C8: on an image created via `createR8`, the generic-color operations
`fill` and `setPixel` are silent no-ops for every color and coordinate: the
image (and hence every element of its buffer) is unchanged. -/
theorem r8_generic_ops_noop (w h : Nat) (mem : Mem R8) (c : SColor)
    (x y : Nat) :
    (Image.createR8 w h mem).fill c = Image.createR8 w h mem ∧
    (Image.createR8 w h mem).setPixel x y c = Image.createR8 w h mem :=
  ⟨rfl, rfl⟩

/-- C9: exactly one of `isRGBA8`/`isRGB8`/`isR8` is true, and the live
variant, width and height are preserved by `fill` and `setPixel` (the only
operations that return a container; `getPixel` and the typed accessors do not
modify the container). -/
theorem image_variant_exclusive_and_preserved (img : Image) (c : SColor)
    (x y : Nat) :
    ((img.isRGBA8 = true ∧ img.isRGB8 = false ∧ img.isR8 = false) ∨
     (img.isRGBA8 = false ∧ img.isRGB8 = true ∧ img.isR8 = false) ∨
     (img.isRGBA8 = false ∧ img.isRGB8 = false ∧ img.isR8 = true)) ∧
    (img.fill c).isRGBA8 = img.isRGBA8 ∧
    (img.fill c).isRGB8 = img.isRGB8 ∧
    (img.fill c).isR8 = img.isR8 ∧
    (img.fill c).getWidth = img.getWidth ∧
    (img.fill c).getHeight = img.getHeight ∧
    (img.setPixel x y c).isRGBA8 = img.isRGBA8 ∧
    (img.setPixel x y c).isRGB8 = img.isRGB8 ∧
    (img.setPixel x y c).isR8 = img.isR8 ∧
    (img.setPixel x y c).getWidth = img.getWidth ∧
    (img.setPixel x y c).getHeight = img.getHeight := by
  cases img <;>
    simp [Image.isRGBA8, Image.isRGB8, Image.isR8, Image.fill, Image.setPixel,
      Image.getWidth, Image.getHeight]

/-- C10: on an image created via `createR8`, `getPixel` at any in-bounds
coordinate returns `SColor(0, 0, 0, 0)` — the 32-bit value 0 — regardless of
the buffer contents. -/
theorem r8_getPixel_zero (w h : Nat) (mem : Mem R8) (x y : Nat)
    (hx : x < w) (hy : y < h) :
    (Image.createR8 w h mem).getPixel x y = SColor.make 0 0 0 0 ∧
    ((Image.createR8 w h mem).getPixel x y).color = 0 :=
  ⟨rfl, rfl⟩

theorem r8_getPixel_zero_witness :
    (0 : Nat) < 2 ∧ (1 : Nat) < 2 ∧
    ((Image.createR8 2 2 (fun _ => R8.mk 77)).getPixel 0 1).color = 0 :=
  ⟨by decide, by decide,
    (r8_getPixel_zero 2 2 (fun _ => R8.mk 77) 0 1 (by decide) (by decide)).2⟩

end ImageModel
